import Mathlib

/-!
Shallow embedding of the Mycelium desktop sidecar supervisor
(`src/desktop/src-tauri/src/main.rs`) and proofs of its specified
properties.

The source is a Tauri `main.rs` that spawns a Python backend as a sidecar
process, relays its output events to logging sinks, polls a health endpoint
until the backend is ready, and kills the child exactly once on window close.
Each Lean definition below is translated directly from the corresponding
Rust item; effects (HTTP GETs, sleeps, `println!`/`eprintln!` calls, kill
signals) are reified as explicit trace elements so that the specified
behaviours become provable statements.
-/

namespace Mycelium

/-- Model of `tauri_plugin_shell::process::CommandChild`: an owned handle to
the spawned child process. Only its identity matters for the claims. -/
structure CommandChild where
  pid : Nat
deriving DecidableEq, Repr

/-! ## Readiness probe (`wait_for_backend`) -/

/-- Outcome of one `client.get(health_url).send().await`: either a response
with a status code, or a transport-level error (`Err(_)` from reqwest). -/
inductive HttpOutcome where
  | response (status : Nat)
  | transportError
deriving DecidableEq, Repr

/-- Translation of `response.status().is_success()`: status in the 2xx range. A transport
error has no status and is never a success (it falls into the `_` match arm
of the source together with non-2xx responses). -/
def HttpOutcome.isSuccess : HttpOutcome → Bool
  | .response s => decide (200 ≤ s ∧ s < 300)
  | .transportError => false

/-- One observable step of `wait_for_backend`. Attempt numbers are 1-based,
matching the source's `attempt {}` log which prints `i + 1`. -/
inductive ProbeStep where
  | httpGet (attempt : Nat)
  | progressLog (attempt : Nat)
  | sleep500
  | warnTimeout
deriving DecidableEq, Repr

/-- The body of `wait_for_backend`'s `for i in 0..30` loop, translated with
the remaining iteration count `r` as structural fuel (`i + r = 30` at the
top-level call). Each iteration issues one HTTP GET; on a 2xx response the
function returns at once; otherwise it logs progress when `i % 5 == 0`,
sleeps 500 ms, and continues. When the loop exhausts its iterations the
trailing `eprintln!` warning is emitted. `health i` is the environment's
answer to the GET of iteration `i`. -/
def waitFromAttempt (health : Nat → HttpOutcome) : Nat → Nat → List ProbeStep
  | _, 0 => [.warnTimeout]
  | i, r + 1 =>
    .httpGet (i + 1) ::
      (if (health i).isSuccess then
        []
      else
        (if i % 5 = 0 then [.progressLog (i + 1)] else []) ++
          .sleep500 :: waitFromAttempt health (i + 1) r)

/-- Translation of `wait_for_backend`: 30 attempts starting at `i = 0`. The Lean function
is total: it always returns a trace and has no error outcome, mirroring the
source function's `()` return type (exhaustion only logs a warning). -/
def wait_for_backend (health : Nat → HttpOutcome) : List ProbeStep :=
  waitFromAttempt health 0 30

def ProbeStep.isGet : ProbeStep → Bool
  | .httpGet _ => true
  | _ => false

def ProbeStep.isLog : ProbeStep → Bool
  | .progressLog _ => true
  | _ => false

def ProbeStep.isSleep : ProbeStep → Bool
  | .sleep500 => true
  | _ => false

def ProbeStep.isWarn : ProbeStep → Bool
  | .warnTimeout => true
  | _ => false

/-- Number of HTTP GET attempts in a probe trace. -/
def countGets (t : List ProbeStep) : Nat := t.countP ProbeStep.isGet

/-- Number of progress-log lines in a probe trace. -/
def countLogs (t : List ProbeStep) : Nat := t.countP ProbeStep.isLog

/-- Number of 500 ms sleeps in a probe trace. -/
def countSleeps (t : List ProbeStep) : Nat := t.countP ProbeStep.isSleep

/-- Number of timeout warnings in a probe trace (0 or 1). -/
def countWarns (t : List ProbeStep) : Nat := t.countP ProbeStep.isWarn

/-- The trace of one failed probe iteration `i`: the GET, the progress log
when `i % 5 = 0`, and the sleep. -/
def failChunk (i : Nat) : List ProbeStep :=
  .httpGet (i + 1) :: (if i % 5 = 0 then [.progressLog (i + 1)] else []) ++ [.sleep500]

/-- The trace of `m` consecutive failed probe iterations starting at `i`. -/
def failChunks : Nat → Nat → List ProbeStep
  | _, 0 => []
  | i, m + 1 => failChunk i ++ failChunks (i + 1) m

theorem waitFromAttempt_success (health : Nat → HttpOutcome) :
    ∀ (m i r : Nat), m < r →
    (∀ j, j < m → (health (i + j)).isSuccess = false) →
    (health (i + m)).isSuccess = true →
    waitFromAttempt health i r = failChunks i m ++ [.httpGet (i + m + 1)] := by
  intro m
  induction m with
  | zero =>
    intro i r hr _ hsucc
    obtain ⟨r', rfl⟩ : ∃ r', r = r' + 1 := ⟨r - 1, (Nat.succ_pred_eq_of_pos hr).symm⟩
    simp [waitFromAttempt, failChunks, Nat.add_zero] at hsucc ⊢
    simp [hsucc]
  | succ m' ih =>
    intro i r hr hfail hsucc
    obtain ⟨r', rfl⟩ : ∃ r', r = r' + 1 :=
      ⟨r - 1, (Nat.succ_pred_eq_of_pos (Nat.lt_of_le_of_lt (Nat.zero_le _) hr)).symm⟩
    have h0 : (health i).isSuccess = false := by
      have := hfail 0 (Nat.succ_pos m')
      simpa using this
    have hrest := ih (i + 1) r' (Nat.lt_of_succ_lt_succ hr)
      (fun j hj => by
        have := hfail (j + 1) (Nat.succ_lt_succ hj)
        simpa [Nat.add_assoc, Nat.add_comm 1 j] using this)
      (by simpa [Nat.add_assoc, Nat.add_comm 1 m'] using hsucc)
    simp [waitFromAttempt, failChunks, failChunk, h0, hrest, Nat.add_assoc, Nat.add_comm 1 m']

theorem waitFromAttempt_timeout (health : Nat → HttpOutcome) :
    ∀ (r i : Nat), (∀ j, j < r → (health (i + j)).isSuccess = false) →
    waitFromAttempt health i r = failChunks i r ++ [.warnTimeout] := by
  intro r
  induction r with
  | zero => intro i _; simp [waitFromAttempt, failChunks]
  | succ r' ih =>
    intro i hfail
    have h0 : (health i).isSuccess = false := by
      have := hfail 0 (Nat.succ_pos r')
      simpa using this
    have hrest := ih (i + 1) (fun j hj => by
      have := hfail (j + 1) (Nat.succ_lt_succ hj)
      simpa [Nat.add_assoc, Nat.add_comm 1 j] using this)
    simp [waitFromAttempt, failChunks, failChunk, h0, hrest]

theorem countGets_failChunks : ∀ m i, countGets (failChunks i m) = m := by
  intro m
  induction m with
  | zero => intro i; simp [failChunks, countGets]
  | succ m' ih =>
    intro i
    by_cases hi : i % 5 = 0 <;>
      simpa [failChunks, failChunk, countGets, List.countP_append, List.countP_cons,
        ProbeStep.isGet, hi] using ih (i + 1)

theorem countSleeps_failChunks : ∀ m i, countSleeps (failChunks i m) = m := by
  intro m
  induction m with
  | zero => intro i; simp [failChunks, countSleeps]
  | succ m' ih =>
    intro i
    by_cases hi : i % 5 = 0 <;>
      simpa [failChunks, failChunk, countSleeps, List.countP_append, List.countP_cons,
        ProbeStep.isSleep, hi] using ih (i + 1)

theorem countWarns_failChunks : ∀ m i, countWarns (failChunks i m) = 0 := by
  intro m
  induction m with
  | zero => intro i; simp [failChunks, countWarns]
  | succ m' ih =>
    intro i
    by_cases hi : i % 5 = 0 <;>
      simpa [failChunks, failChunk, countWarns, List.countP_append, List.countP_cons,
        ProbeStep.isWarn, hi] using ih (i + 1)

theorem progressLog_mem_isFail (health : Nat → HttpOutcome) :
    ∀ (r i a : Nat), ProbeStep.progressLog a ∈ waitFromAttempt health i r →
    (health (a - 1)).isSuccess = false := by
  intro r
  induction r with
  | zero => intro i a hmem; simp [waitFromAttempt] at hmem
  | succ r' ih =>
    intro i a hmem
    by_cases hs : (health i).isSuccess
    · simp [waitFromAttempt, hs] at hmem
    · simp only [waitFromAttempt, Bool.not_eq_true] at hs
      by_cases hi : i % 5 = 0 <;>
        simp [waitFromAttempt, hs, hi, List.mem_append] at hmem
      · rcases hmem with rfl | h
        · simpa using hs
        · exact ih (i + 1) a h
      · exact ih (i + 1) a hmem

theorem countSleeps_succ_eq (health : Nat → HttpOutcome) :
    ∀ (r i : Nat), countSleeps (waitFromAttempt health i r) + 1 =
      countGets (waitFromAttempt health i r) + countWarns (waitFromAttempt health i r) := by
  intro r
  induction r with
  | zero =>
    intro i
    simp [waitFromAttempt, countSleeps, countGets, countWarns, ProbeStep.isSleep,
      ProbeStep.isGet, ProbeStep.isWarn]
  | succ r' ih =>
    intro i
    by_cases hs : (health i).isSuccess
    · simp [waitFromAttempt, hs, countSleeps, countGets, countWarns, ProbeStep.isSleep,
        ProbeStep.isGet, ProbeStep.isWarn]
    · simp only [Bool.not_eq_true] at hs
      have := ih (i + 1)
      by_cases hi : i % 5 = 0 <;>
        simp [waitFromAttempt, hs, hi, countSleeps, countGets, countWarns,
          List.countP_append, List.countP_cons, ProbeStep.isSleep, ProbeStep.isGet,
          ProbeStep.isWarn] at this ⊢ <;> omega

/-- Health-endpoint environment that always fails with a transport error
(connection refused while the backend never comes up). -/
def alwaysDown : Nat → HttpOutcome := fun _ => .transportError

/-- Health-endpoint environment that fails with a transport error on the
iterations before `n` and answers 200 from iteration `n` on. -/
def upFrom (n : Nat) : Nat → HttpOutcome :=
  fun j => if n ≤ j then .response 200 else .transportError

/-- C2: if the health endpoint first succeeds (2xx) on attempt `k`
(`1 ≤ k ≤ 30`) and fails on all earlier attempts, then `wait_for_backend`
performs exactly `k` HTTP GET attempts, its trace is the `k - 1` failure
iterations followed by the final GET of attempt `k` — so it returns
immediately after the `k`-th attempt, with no sleep after it and no
re-probe — sleeps exactly `k - 1` times, and never reaches the timeout
warning. -/
theorem wait_for_backend_first_success (health : Nat → HttpOutcome) (k : Nat)
    (hk1 : 1 ≤ k) (hk30 : k ≤ 30)
    (hsucc : (health (k - 1)).isSuccess = true)
    (hfail : ∀ j, j < k - 1 → (health j).isSuccess = false) :
    wait_for_backend health = failChunks 0 (k - 1) ++ [ProbeStep.httpGet k] ∧
    countGets (wait_for_backend health) = k ∧
    countSleeps (wait_for_backend health) = k - 1 ∧
    countWarns (wait_for_backend health) = 0 := by
  have hm : k - 1 < 30 := by omega
  have htr := waitFromAttempt_success health (k - 1) 0 30 hm
    (fun j hj => by simpa using hfail j hj) (by simpa using hsucc)
  have hk : k - 1 + 1 = k := by omega
  rw [Nat.zero_add, hk] at htr
  refine ⟨htr, ?_, ?_, ?_⟩ <;>
    simp [wait_for_backend, htr, countGets, countSleeps, countWarns, List.countP_append,
      ProbeStep.isGet, ProbeStep.isSleep, ProbeStep.isWarn]
  · have := countGets_failChunks (k - 1) 0
    simp [countGets] at this
    omega
  · have := countSleeps_failChunks (k - 1) 0
    simpa [countSleeps] using this
  · have := countWarns_failChunks (k - 1) 0
    simpa [countWarns] using this

/-- C2 witness: endpoint down on iterations 0 and 1 and up from iteration 2,
i.e. first success on attempt `k = 3`. -/
theorem wait_for_backend_first_success_witness :
    wait_for_backend (upFrom 2) = failChunks 0 2 ++ [ProbeStep.httpGet 3] ∧
    countGets (wait_for_backend (upFrom 2)) = 3 ∧
    countSleeps (wait_for_backend (upFrom 2)) = 2 ∧
    countWarns (wait_for_backend (upFrom 2)) = 0 :=
  wait_for_backend_first_success (upFrom 2) 3 (by decide) (by decide) (by decide)
    (by decide)

/-- C3: if the health endpoint never succeeds, `wait_for_backend` performs
exactly 30 GET attempts and its trace ends with the single non-fatal
timeout warning; the function still returns a trace (it is total and has no
error outcome), so the application continues running. -/
theorem wait_for_backend_timeout (health : Nat → HttpOutcome)
    (hfail : ∀ j, j < 30 → (health j).isSuccess = false) :
    wait_for_backend health = failChunks 0 30 ++ [ProbeStep.warnTimeout] ∧
    countGets (wait_for_backend health) = 30 ∧
    countSleeps (wait_for_backend health) = 30 ∧
    countWarns (wait_for_backend health) = 1 := by
  have htr := waitFromAttempt_timeout health 30 0 (fun j hj => by simpa using hfail j hj)
  refine ⟨htr, ?_, ?_, ?_⟩ <;>
    simp [wait_for_backend, htr, countGets, countSleeps, countWarns, List.countP_append,
      ProbeStep.isGet, ProbeStep.isSleep, ProbeStep.isWarn]
  · have := countGets_failChunks 30 0
    simp [countGets] at this
    omega
  · have := countSleeps_failChunks 30 0
    simpa [countSleeps] using this
  · have := countWarns_failChunks 30 0
    simpa [countWarns] using this

/-- C3 witness: an endpoint that always fails with a transport error. -/
theorem wait_for_backend_timeout_witness :
    wait_for_backend alwaysDown = failChunks 0 30 ++ [ProbeStep.warnTimeout] ∧
    countGets (wait_for_backend alwaysDown) = 30 ∧
    countSleeps (wait_for_backend alwaysDown) = 30 ∧
    countWarns (wait_for_backend alwaysDown) = 1 :=
  wait_for_backend_timeout alwaysDown (by decide)

/-- C7: when attempts 1–4 fail and attempt 5 succeeds, exactly one progress
log is emitted, at attempt 1 (`i % 5 == 0` with `i = 0`, the cadence
boundary), only 5 GET attempts happen, and attempt 6 is never reached. -/
theorem wait_for_backend_log_cadence (health : Nat → HttpOutcome)
    (hfail : ∀ j, j < 4 → (health j).isSuccess = false)
    (hsucc : (health 4).isSuccess = true) :
    countLogs (wait_for_backend health) = 1 ∧
    ProbeStep.progressLog 1 ∈ wait_for_backend health ∧
    ProbeStep.httpGet 6 ∉ wait_for_backend health ∧
    countGets (wait_for_backend health) = 5 := by
  have htr := waitFromAttempt_success health 4 0 30 (by omega)
    (fun j hj => by simpa using hfail j hj) (by simpa using hsucc)
  rw [wait_for_backend, htr]
  refine ⟨?_, ?_, ?_, ?_⟩ <;> decide

/-- C7 witness: endpoint down on iterations 0–3 and up from iteration 4. -/
theorem wait_for_backend_log_cadence_witness :
    countLogs (wait_for_backend (upFrom 4)) = 1 ∧
    ProbeStep.progressLog 1 ∈ wait_for_backend (upFrom 4) ∧
    ProbeStep.httpGet 6 ∉ wait_for_backend (upFrom 4) ∧
    countGets (wait_for_backend (upFrom 4)) = 5 :=
  wait_for_backend_log_cadence (upFrom 4) (by decide) (by decide)

/-- C10: a progress log for attempt `a` can only appear in the trace if
attempt `a` failed (a successful attempt returns before logging, even on a
cadence boundary), and the sleep count satisfies
`sleeps + 1 = gets + warnings`: with a success there are `gets - 1` sleeps
(no sleep after the success), and on timeout every one of the 30 failed
attempts — including the last — is followed by the 500 ms sleep. -/
theorem wait_for_backend_log_only_on_failure (health : Nat → HttpOutcome) (a : Nat) :
    (ProbeStep.progressLog a ∈ wait_for_backend health →
      (health (a - 1)).isSuccess = false) ∧
    countSleeps (wait_for_backend health) + 1 =
      countGets (wait_for_backend health) + countWarns (wait_for_backend health) :=
  ⟨fun hmem => progressLog_mem_isFail health 30 0 a hmem,
   countSleeps_succ_eq health 30 0⟩

/-- C10 witness: with an always-failing endpoint the progress log for
attempt 1 is in the trace, and the theorem instantiated there yields that
attempt 1 failed together with the sleep-count equation. -/
theorem wait_for_backend_log_only_on_failure_witness :
    (alwaysDown 0).isSuccess = false ∧
    countSleeps (wait_for_backend alwaysDown) + 1 =
      countGets (wait_for_backend alwaysDown) + countWarns (wait_for_backend alwaysDown) :=
  ⟨(wait_for_backend_log_only_on_failure alwaysDown 1).1 (by decide),
   (wait_for_backend_log_only_on_failure alwaysDown 1).2⟩

/-! ## Shutdown coordinator (`on_window_event` close-requested handler)

The source guards the child handle as
`struct BackendProcess(Mutex<Option<CommandChild>>)`, registered with
`app_handle.manage(...)`. The handler models the three layers the source
goes through on `CloseRequested`:

* `window.try_state::<BackendProcess>()` — `none` when `manage` has not run
  yet (`unmanaged` below);
* `backend.0.lock()` — `Err(..)` when the mutex is poisoned (a Rust std
  mutex stays poisoned once poisoned, so the `poisoned` lock state is
  preserved);
* `guard.take()` — moves the handle out of the `Option` slot.
-/

/-- The lock around the handle slot: a healthy mutex yields its
`Option CommandChild` content, a poisoned one refuses `lock()` while still
containing its slot. -/
inductive LockState where
  | healthy (slot : Option CommandChild)
  | poisoned (slot : Option CommandChild)
deriving DecidableEq, Repr

/-- The managed-state layer: `unmanaged` when
`app_handle.manage(BackendProcess(..))` has not run, otherwise the
`BackendProcess` with its mutex. -/
inductive ManagedState where
  | unmanaged
  | managed (lock : LockState)
deriving DecidableEq, Repr

/-- Log lines emitted by the close-requested handler. -/
inductive CloseLog where
  | closing
  | killOk
  | killErr (e : String)
deriving DecidableEq, Repr

/-- Result of running the close-requested handler once: the state of the
slot afterwards, the kill signals issued, and the log lines printed. -/
structure CloseOutcome where
  state : ManagedState
  kills : List CommandChild
  logs : List CloseLog
deriving DecidableEq, Repr

/-- The `WindowEvent::CloseRequested` arm of `on_window_event`: print the
closing line, then `try_state` / `lock` / `take`; when a handle comes out,
issue `child.kill()` and log its result. The `kill` parameter is the
environment's answer to `child.kill()`. -/
def on_close_requested (kill : CommandChild → Except String Unit) :
    ManagedState → CloseOutcome
  | .unmanaged => ⟨.unmanaged, [], [.closing]⟩
  | .managed (.poisoned s) => ⟨.managed (.poisoned s), [], [.closing]⟩
  | .managed (.healthy none) => ⟨.managed (.healthy none), [], [.closing]⟩
  | .managed (.healthy (some c)) =>
    ⟨.managed (.healthy none), [c],
      [.closing, match kill c with | .ok _ => .killOk | .error e => .killErr e]⟩

/-- C1: shutdown is idempotent by take-semantics. Whatever state the slot is
in, a second invocation of the close-requested handler issues no kill signal
at all (so never a second termination signal to an already-released handle);
and an invocation made while the handle slot is absent — spawn not completed
(`unmanaged`) or handle already taken (`healthy none`) — is a no-op: no kill,
state unchanged, and only the unconditional closing line is logged, with no
error. No separate already-shut-down flag exists anywhere in the state. -/
theorem close_requested_idempotent (kill : CommandChild → Except String Unit)
    (s : ManagedState) :
    (on_close_requested kill (on_close_requested kill s).state).kills = [] ∧
    on_close_requested kill (.managed (.healthy none)) =
      ⟨.managed (.healthy none), [], [.closing]⟩ ∧
    on_close_requested kill .unmanaged = ⟨.unmanaged, [], [.closing]⟩ := by
  refine ⟨?_, rfl, rfl⟩
  rcases s with _ | lock
  · rfl
  · rcases lock with s | s
    · rcases s with _ | c <;> rfl
    · rfl

/-- C9: when the mutex is poisoned, `if let Ok(mut guard) = backend.0.lock()`
fails and the handler silently skips the body: no kill signal, no kill log
(only the unconditional closing line, printed before the lock attempt), and
the slot's content — handle or not — stays exactly as it was, under a still
poisoned lock. -/
theorem close_requested_poisoned_noop (kill : CommandChild → Except String Unit)
    (s : Option CommandChild) :
    on_close_requested kill (.managed (.poisoned s)) =
      ⟨.managed (.poisoned s), [], [.closing]⟩ :=
  rfl

/-! ## Slot lifecycle (C4)

The only two places in the source that touch the `BackendProcess` slot are
the `app_handle.manage(BackendProcess(Mutex::new(Some(child))))` call in the
startup task and the `guard.take()` in the close-requested handler. A run of
the application is therefore a sequence of these two operations. Tauri's
`Manager::manage` does not replace an already-managed state (it returns
`false` and leaves the existing value), which the `spawnStore` case mirrors.
-/

/-- The operations the source performs on the handle slot. -/
inductive SupervisorOp where
  | spawnStore (c : CommandChild)
  | closeRequested
deriving DecidableEq, Repr

/-- One slot operation applied to the managed state. -/
def applyOp (kill : CommandChild → Except String Unit) :
    ManagedState → SupervisorOp → ManagedState
  | .unmanaged, .spawnStore c => .managed (.healthy (some c))
  | .managed l, .spawnStore _ => .managed l
  | s, .closeRequested => (on_close_requested kill s).state

/-- The state after a sequence of slot operations. -/
def runState (kill : CommandChild → Except String Unit) :
    ManagedState → List SupervisorOp → ManagedState
  | s, [] => s
  | s, op :: ops => runState kill (applyOp kill s op) ops

/-- Number of kill signals (successful takes) issued over a run. -/
def runTakes (kill : CommandChild → Except String Unit) :
    ManagedState → List SupervisorOp → Nat
  | _, [] => 0
  | s, .closeRequested :: ops =>
    (on_close_requested kill s).kills.length + runTakes kill (applyOp kill s .closeRequested) ops
  | s, .spawnStore c :: ops => runTakes kill (applyOp kill s (.spawnStore c)) ops

/-- Number of times a run stores a handle into the slot (a `manage` call that
actually takes effect). -/
def runSets (kill : CommandChild → Except String Unit) :
    ManagedState → List SupervisorOp → Nat
  | _, [] => 0
  | .unmanaged, .spawnStore c :: ops =>
    1 + runSets kill (applyOp kill .unmanaged (.spawnStore c)) ops
  | s, op :: ops => runSets kill (applyOp kill s op) ops

/-- Number of live handles held in the slot (0 or 1 by construction of the
`Option` slot). -/
def handleCount : ManagedState → Nat
  | .managed (.healthy (some _)) => 1
  | .managed (.poisoned (some _)) => 1
  | _ => 0

theorem runState_taken_fixed (kill : CommandChild → Except String Unit) :
    ∀ ops, runState kill (.managed (.healthy none)) ops = .managed (.healthy none) ∧
      runTakes kill (.managed (.healthy none)) ops = 0 := by
  intro ops
  induction ops with
  | nil => exact ⟨rfl, rfl⟩
  | cons op ops ih =>
    rcases op with c | _
    · simpa [runState, runTakes, applyOp] using ih
    · simpa [runState, runTakes, applyOp, on_close_requested] using ih

theorem runTakes_live_le_one (kill : CommandChild → Except String Unit) (c : CommandChild) :
    ∀ ops, runTakes kill (.managed (.healthy (some c))) ops ≤ 1 := by
  intro ops
  induction ops with
  | nil => exact Nat.zero_le 1
  | cons op ops ih =>
    rcases op with c' | _
    · simpa [runTakes, applyOp] using ih
    · have := (runState_taken_fixed kill ops).2
      simp [runTakes, applyOp, on_close_requested, this]

theorem runSets_managed_eq_zero (kill : CommandChild → Except String Unit) :
    ∀ ops l, runSets kill (.managed l) ops = 0 := by
  intro ops
  induction ops with
  | nil => intro l; rfl
  | cons op ops ih =>
    intro l
    rcases op with c | _
    · simpa [runSets, applyOp] using ih l
    · rcases l with s | s
      · rcases s with _ | c <;> simpa [runSets, applyOp, on_close_requested] using ih _
      · simpa [runSets, applyOp, on_close_requested] using ih _

/-- C4: over any sequence of the two slot operations the program performs,
starting from the unmanaged initial state: the slot never holds more than
one handle; it is stored into at most once; the handle is taken out (a kill
signal issued) at most once; and from the taken state (`healthy none`) the
slot stays absent forever with zero further takes, so once taken it can
never be taken again. -/
theorem handle_slot_lifecycle (kill : CommandChild → Except String Unit)
    (ops : List SupervisorOp) :
    handleCount (runState kill .unmanaged ops) ≤ 1 ∧
    runSets kill .unmanaged ops ≤ 1 ∧
    runTakes kill .unmanaged ops ≤ 1 ∧
    runState kill (.managed (.healthy none)) ops = .managed (.healthy none) ∧
    runTakes kill (.managed (.healthy none)) ops = 0 := by
  refine ⟨?_, ?_, ?_, (runState_taken_fixed kill ops).1, (runState_taken_fixed kill ops).2⟩
  · rcases runState kill .unmanaged ops with _ | l
    · exact Nat.zero_le 1
    · rcases l with s | s <;> rcases s with _ | c <;> simp [handleCount]
  · induction ops with
    | nil => exact Nat.zero_le 1
    | cons op ops ih =>
      rcases op with c | _
      · simp [runSets, applyOp, runSets_managed_eq_zero]
      · simpa [runSets, applyOp, on_close_requested] using ih
  · induction ops with
    | nil => exact Nat.zero_le 1
    | cons op ops ih =>
      rcases op with c | _
      · simpa [runTakes, applyOp] using runTakes_live_le_one kill c ops
      · simpa [runTakes, applyOp, on_close_requested] using ih

/-! ## Output relay (the nested `async_runtime::spawn` loop)

The relay loop is `while let Some(event) = rx.recv().await { match event ... }`.
The channel's queue is modelled as a `List CommandEvent`; reaching `[]` is
`rx.recv()` returning `None` (event source closed). Output lines are carried
as `String` (the source applies `String::from_utf8_lossy` to the raw bytes
before printing). -/

/-- The payload of `CommandEvent::Terminated` in `tauri_plugin_shell`. -/
structure TerminatedPayload where
  code : Option Int
  signal : Option Int
deriving DecidableEq, Repr

/-- Model of `tauri_plugin_shell::process::CommandEvent`; `other` stands for the
`_ => {}` match arm of the source (the enum is non-exhaustive). -/
inductive CommandEvent where
  | stdout (line : String)
  | stderr (line : String)
  | error (err : String)
  | terminated (payload : TerminatedPayload)
  | other
deriving DecidableEq, Repr

/-- A line forwarded by the relay to a logging sink: `info` is the
`println!("[Backend] {}")` forwarding of a stdout line, `errLine` the
`eprintln!("[Backend Error] {}")` forwarding of a stderr line, `fatal` the
`eprintln!("[Backend Fatal] {}")` line, `termLog` the termination notice. -/
inductive SinkLine where
  | info (s : String)
  | errLine (s : String)
  | fatal (s : String)
  | termLog (payload : TerminatedPayload)
deriving DecidableEq, Repr

/-- Result of running the relay loop over a queue of events: the sink lines
it printed, the kill signals it issued to the child (no match arm of the
source kills, so every case contributes none), and the events left
unconsumed in the queue when the loop exited. -/
structure RelayOut where
  sinks : List SinkLine
  kills : List CommandChild
  leftover : List CommandEvent
deriving DecidableEq, Repr

/-- The relay loop, one match arm per `CommandEvent` case; `terminated`
breaks out of the loop, leaving the rest of the queue unconsumed. -/
def relayRun : List CommandEvent → RelayOut
  | [] => ⟨[], [], []⟩
  | .stdout l :: rest =>
    let o := relayRun rest
    ⟨.info l :: o.sinks, o.kills, o.leftover⟩
  | .stderr l :: rest =>
    let o := relayRun rest
    ⟨.errLine l :: o.sinks, o.kills, o.leftover⟩
  | .error e :: rest =>
    let o := relayRun rest
    ⟨.fatal e :: o.sinks, o.kills, o.leftover⟩
  | .terminated p :: rest => ⟨[.termLog p], [], rest⟩
  | .other :: rest => relayRun rest

/-- Whether an event is `Terminated` (the only event that breaks the loop). -/
def CommandEvent.isTerm : CommandEvent → Bool
  | .terminated _ => true
  | _ => false

/-- The events that remain after consuming through the first terminated
event; `[]` when no terminated event exists (the whole queue is consumed). -/
def afterFirstTerm : List CommandEvent → List CommandEvent
  | [] => []
  | e :: rest => if e.isTerm then rest else afterFirstTerm rest

/-- The stdout lines a sink trace forwards to the informational sink. -/
def infoForwards (t : List SinkLine) : List String :=
  t.filterMap fun s => match s with | .info l => some l | _ => none

/-- The stderr lines a sink trace forwards to the error sink. -/
def errForwards (t : List SinkLine) : List String :=
  t.filterMap fun s => match s with | .errLine l => some l | _ => none

theorem relayRun_leftover : ∀ evs, (relayRun evs).leftover = afterFirstTerm evs := by
  intro evs
  induction evs with
  | nil => rfl
  | cons e rest ih =>
    rcases e with l | l | err | p | _ <;>
      simp [relayRun, afterFirstTerm, CommandEvent.isTerm, ih]

/-- C5: on the queue `[Stdout "a", Stderr "b", Stdout "c", Terminated 0]`
followed by any further events, the relay forwards exactly "a" then "c" to
the informational sink in that order and exactly "b" to the error sink,
consumes nothing queued after the terminated event (the leftover is exactly
the tail), and issues no kill; in general the leftover of any queue is
exactly what follows the first terminated event, and the whole queue when no
terminated event occurs — the loop ends exactly on a terminated event or on
the closed (exhausted) source. -/
theorem relay_forwards_and_stops (tail evs : List CommandEvent) :
    infoForwards (relayRun ([.stdout "a", .stderr "b", .stdout "c",
        .terminated ⟨some 0, none⟩] ++ tail)).sinks = ["a", "c"] ∧
    errForwards (relayRun ([.stdout "a", .stderr "b", .stdout "c",
        .terminated ⟨some 0, none⟩] ++ tail)).sinks = ["b"] ∧
    (relayRun ([.stdout "a", .stderr "b", .stdout "c",
        .terminated ⟨some 0, none⟩] ++ tail)).leftover = tail ∧
    (relayRun ([.stdout "a", .stderr "b", .stdout "c",
        .terminated ⟨some 0, none⟩] ++ tail)).kills = [] ∧
    (relayRun evs).leftover = afterFirstTerm evs := by
  refine ⟨rfl, rfl, rfl, rfl, relayRun_leftover evs⟩

/-- C8: an `Error` event on the stream is forwarded to the fatal log and the
loop keeps consuming the subsequent events exactly as it would have without
it (same further sinks, same leftover — no break), and the relay issues no
kill signal on any queue, so the supervised child is untouched. -/
theorem relay_error_continues (e : String) (rest evs : List CommandEvent) :
    relayRun (.error e :: rest) =
      ⟨.fatal e :: (relayRun rest).sinks, (relayRun rest).kills, (relayRun rest).leftover⟩ ∧
    (relayRun evs).kills = [] := by
  refine ⟨rfl, ?_⟩
  induction evs with
  | nil => rfl
  | cons ev rest' ih =>
    rcases ev with l | l | err | p | _ <;> simp [relayRun, ih]

/-! ## Startup task (the `setup` closure's spawned task) -/

/-- The environment of one run of the startup task: whether
`shell.sidecar("mycelium-backend")` succeeds, whether
`sidecar_command.spawn()` succeeds (and with which child), and the health
endpoint's behaviour. -/
structure StartupEnv where
  sidecar : Except String Unit
  spawn : Except String CommandChild
  health : Nat → HttpOutcome

/-- Observable outcome of the startup task. `result` is `.error` exactly
when one of the two `.expect` calls panics, aborting the task at that point;
the remaining fields record how far the task got: whether a handle was
stored via `manage`, whether the relay task was spawned, the probe trace of
`wait_for_backend` (empty when never reached), and whether the final ready
line was printed. -/
structure StartupTrace where
  result : Except String Unit
  stored : Option CommandChild
  relayStarted : Bool
  probeTrace : List ProbeStep
  readyLogged : Bool
deriving Repr

/-- The async startup task from the `setup` closure: create the sidecar
command (`.expect("Failed to create sidecar command")`), spawn it
(`.expect("Failed to spawn backend sidecar")`), `manage` the handle, spawn
the relay task, await `wait_for_backend`, print the ready line. A failed
`.expect` panics: the task aborts with that message and nothing after it
runs — in particular the failure is never retried. -/
def startupTask (env : StartupEnv) : StartupTrace :=
  match env.sidecar with
  | .error _ =>
    ⟨.error "Failed to create sidecar command", none, false, [], false⟩
  | .ok _ =>
    match env.spawn with
    | .error _ =>
      ⟨.error "Failed to spawn backend sidecar", none, false, [], false⟩
    | .ok child =>
      ⟨.ok (), some child, true, wait_for_backend env.health, true⟩

/-- C6: the startup task fails exactly when locating the sidecar or spawning
it fails, and on failure it stores no handle, starts no relay, and never
reaches the probe or the ready state — it does not proceed to a usable
state. Conversely when both succeed it completes. This is the only error
outcome in the subsystem: `wait_for_backend`, the relay, and the
close-requested handler are total functions with no error result. -/
theorem startup_fails_fatally_iff (env : StartupEnv) :
    (startupTask env).result.isOk = (env.sidecar.isOk && env.spawn.isOk) ∧
    (startupTask env).stored.isSome = (startupTask env).result.isOk ∧
    (startupTask env).relayStarted = (startupTask env).result.isOk ∧
    (startupTask env).readyLogged = (startupTask env).result.isOk ∧
    ((startupTask env).probeTrace = [] ∨
      (startupTask env).probeTrace = wait_for_backend env.health) := by
  rcases henv : env.sidecar with e | u
  · simp [startupTask, henv, Except.isOk, Except.toBool]
  · rcases hsp : env.spawn with e | c <;>
      simp [startupTask, henv, hsp, Except.isOk, Except.toBool]

end Mycelium
